import Mathlib

/-!
Verification of the Grave-Research ingestion-and-matching pipeline.

Shallow embedding of the functions of `backend/kalshi_client.py`,
`backend/news_matcher.py`, `backend/ingestion.py` and
`backend/database/crud.py` that the claims concern.  Python floats are
modelled by `ℚ`, dict integer fields by `Option (Option ℤ)` (absent key /
present `None` / present integer), and the network by explicit lists of
responses.
-/

/-! ### `backend/kalshi_client.py` : `calculate_market_heat` -/

/-- A market dict as read by `calculate_market_heat`.  Each field is `none`
when the key is absent, `some none` when the key is present with value
`None`, and `some (some v)` when present with the integer `v`. -/
structure Market where
  volume : Option (Option ℤ)
  open_interest : Option (Option ℤ)
  yes_price : Option (Option ℤ)

/-- Python `market.get(key, default)`: the stored value (possibly `None`)
when the key is present, else the default. -/
def dictGetD (field : Option (Option ℤ)) (dflt : ℤ) : Option ℤ :=
  field.getD (some dflt)

/-- Python `x or default` for an int-or-`None` `x`: both `None` and `0` are
falsy and give the default. -/
def pyOr (x : Option ℤ) (dflt : ℤ) : ℤ :=
  match x with
  | none => dflt
  | some v => if v = 0 then dflt else v

/-- `calculate_market_heat` from `backend/kalshi_client.py`:
`min(volume/10000, 10) + min(open_interest/5000, 5)
 + (1 - |yes_price - 50|/50) * 3`, where
`volume = market.get("volume", 0) or 0`,
`open_interest = market.get("open_interest", 0) or 0`,
`yes_price = market.get("yes_price", 50) or 50`. -/
def calculate_market_heat (market : Market) : ℚ :=
  let volume := pyOr (dictGetD market.volume 0) 0
  let open_interest := pyOr (dictGetD market.open_interest 0) 0
  let yes_price := pyOr (dictGetD market.yes_price 50) 50
  let volume_score := min ((volume : ℚ) / 10000) 10
  let oi_score := min ((open_interest : ℚ) / 5000) 5
  let price_uncertainty := 1 - |(yes_price : ℚ) - 50| / 50
  let uncertainty_score := price_uncertainty * 3
  volume_score + oi_score + uncertainty_score

theorem pyOr_some (x d : ℤ) : pyOr (some x) d = if x = 0 then d else x := rfl

theorem pyOr_none (d : ℤ) : pyOr none d = d := rfl

theorem pyOr_some_zero_default (v : ℤ) : pyOr (some v) 0 = v := by
  by_cases h : v = 0 <;> simp [pyOr, h]

theorem calculate_market_heat_eq (m : Market) :
    calculate_market_heat m =
      min ((pyOr (dictGetD m.volume 0) 0 : ℚ) / 10000) 10 +
      min ((pyOr (dictGetD m.open_interest 0) 0 : ℚ) / 5000) 5 +
      (1 - |(pyOr (dictGetD m.yes_price 50) 50 : ℚ) - 50| / 50) * 3 := rfl

/-- Claim C1: the spec scenario asserts that the market
`{volume: 10000, open_interest: 5000, yes_price: 50}` has heat score
`10 + 5 + 3 = 18`.  On the code the volume component is
`min(10000/10000, 10) = 1` and the open-interest component is
`min(5000/5000, 5) = 1`, so the heat score is `5`, not `18`. -/
theorem C1_heat_scenario_not_18 :
    calculate_market_heat
        ⟨some (some 10000), some (some 5000), some (some 50)⟩ = 5 ∧
    calculate_market_heat
        ⟨some (some 10000), some (some 5000), some (some 50)⟩ ≠ 18 := by
  have h : calculate_market_heat
      ⟨some (some 10000), some (some 5000), some (some 50)⟩ = 5 := by
    rw [calculate_market_heat_eq]
    norm_num [dictGetD, pyOr]
  exact ⟨h, by rw [h]; norm_num⟩

/-- Claim C1 (amended): for the market dict
`{volume: 10000, open_interest: 5000, yes_price: 50}`,
`calculate_market_heat` returns `1 + 1 + 3 = 5`: each of the first two
components reaches exactly `1`, far below its cap, and the
price-uncertainty component is the full `3`. -/
theorem C1_heat_scenario_value :
    calculate_market_heat
        ⟨some (some 10000), some (some 5000), some (some 50)⟩ = 1 + 1 + 3 := by
  rw [calculate_market_heat_eq]
  norm_num [dictGetD, pyOr]

/-- Claim C10: `calculate_market_heat` coerces falsy values: a market whose
`yes_price` key is present with value `0` (or `None`) scores identically to
the same market with `yes_price = 50` and receives the full
price-uncertainty bonus of `3`; likewise `volume = None` and
`open_interest = None` behave as `0`. -/
theorem C10_falsy_coercion (v oi yp : Option (Option ℤ)) :
    calculate_market_heat ⟨v, oi, some (some 0)⟩ =
      calculate_market_heat ⟨v, oi, some (some 50)⟩ ∧
    calculate_market_heat ⟨v, oi, some none⟩ =
      calculate_market_heat ⟨v, oi, some (some 50)⟩ ∧
    (1 - |(pyOr (dictGetD (some (some 0)) 50) 50 : ℚ) - 50| / 50) * 3 = 3 ∧
    calculate_market_heat ⟨some none, oi, yp⟩ =
      calculate_market_heat ⟨some (some 0), oi, yp⟩ ∧
    calculate_market_heat ⟨v, some none, yp⟩ =
      calculate_market_heat ⟨v, some (some 0), yp⟩ := by
  refine ⟨?_, ?_, ?_, ?_, ?_⟩ <;>
    norm_num [calculate_market_heat_eq, dictGetD, pyOr]

theorem pyOr_getD_self (x d : ℤ) :
    pyOr (dictGetD (some (some x)) d) d = if x = 0 then d else x := rfl

theorem pyOr_getD_zero (x : ℤ) : pyOr (dictGetD (some (some x)) 0) 0 = x := by
  rw [pyOr_getD_self]
  by_cases h : x = 0 <;> simp [h]

/-- Claim C3 counterexample: the claim says that with volume and
open interest fixed, every `yes_price` in 0–100 other than 50 scores
strictly smaller than `yes_price = 50`.  At `yes_price = 0` the score is
not strictly smaller: the falsy coercion `yes_price or 50` maps 0 to 50,
so the two scores are equal. -/
theorem C3_counterexample_price_zero_ties :
    ¬ (calculate_market_heat ⟨none, none, some (some 0)⟩ <
        calculate_market_heat ⟨none, none, some (some 50)⟩) ∧
    calculate_market_heat ⟨none, none, some (some 0)⟩ =
      calculate_market_heat ⟨none, none, some (some 50)⟩ := by
  have h : calculate_market_heat ⟨none, none, some (some 0)⟩ =
      calculate_market_heat ⟨none, none, some (some 50)⟩ := by
    norm_num [calculate_market_heat_eq, dictGetD, pyOr]
  exact ⟨by rw [h]; exact lt_irrefl _, h⟩

/-- Claim C3 (amended): holding volume and open interest fixed,
`calculate_market_heat` is maximized at `yes_price = 50`, strictly so for
every `yes_price` in 1–100 other than 50; `yes_price = 0` is coerced to 50
by the falsy-value handling and attains the same maximal score. -/
theorem C3_max_at_50_except_zero (p : ℤ) (h1 : 1 ≤ p) (h2 : p ≤ 100)
    (h50 : p ≠ 50) (v oi : Option (Option ℤ)) :
    calculate_market_heat ⟨v, oi, some (some p)⟩ <
      calculate_market_heat ⟨v, oi, some (some 50)⟩ ∧
    calculate_market_heat ⟨v, oi, some (some 0)⟩ =
      calculate_market_heat ⟨v, oi, some (some 50)⟩ := by
  have hp0 : p ≠ 0 := by omega
  constructor
  · rw [calculate_market_heat_eq, calculate_market_heat_eq]
    rw [pyOr_getD_self p 50, if_neg hp0, pyOr_getD_self 50 50]
    have hne : ((p : ℚ) - 50) ≠ 0 := by
      intro h
      apply h50
      have hpq : (p : ℚ) = 50 := by linarith
      exact_mod_cast hpq
    have habs : 0 < |(p : ℚ) - 50| := abs_pos.mpr hne
    have hlt : (1 - |(p : ℚ) - 50| / 50) * 3 <
        (1 - |((if (50 : ℤ) = 0 then 50 else 50 : ℤ) : ℚ) - 50| / 50) * 3 := by
      have ht : 0 < |(p : ℚ) - 50| / 50 := div_pos habs (by norm_num)
      have h2 : |((if (50 : ℤ) = 0 then 50 else 50 : ℤ) : ℚ) - 50| = 0 := by
        norm_num
      rw [h2]
      linarith
    exact add_lt_add_left hlt _
  · norm_num [calculate_market_heat_eq, dictGetD, pyOr]

/-- Witness for C3: `yes_price = 30` scores strictly below `yes_price = 50`,
and `yes_price = 0` ties it. -/
theorem C3_max_at_50_except_zero_witness :
    calculate_market_heat ⟨none, some (some 4000), some (some 30)⟩ <
      calculate_market_heat ⟨none, some (some 4000), some (some 50)⟩ ∧
    calculate_market_heat ⟨none, some (some 4000), some (some 0)⟩ =
      calculate_market_heat ⟨none, some (some 4000), some (some 50)⟩ :=
  C3_max_at_50_except_zero 30 (by decide) (by decide) (by decide)
    none (some (some 4000))

/-- Claim C4: for a market whose `yes_price` is an integer in 0–100 and
whose `volume` and `open_interest` are non-negative integers, the heat
score lies in `[0, 18]`, and it is monotonically non-decreasing in volume
and in open interest with all other inputs held fixed. -/
theorem C4_heat_bounds_monotone (v oi p v2 oi2 : ℤ)
    (hv : 0 ≤ v) (hoi : 0 ≤ oi) (hp0 : 0 ≤ p) (hp1 : p ≤ 100)
    (hv2 : v ≤ v2) (hoi2 : oi ≤ oi2) (vf oif pf : Option (Option ℤ)) :
    (0 ≤ calculate_market_heat
        ⟨some (some v), some (some oi), some (some p)⟩ ∧
     calculate_market_heat
        ⟨some (some v), some (some oi), some (some p)⟩ ≤ 18) ∧
    calculate_market_heat ⟨some (some v), oif, pf⟩ ≤
      calculate_market_heat ⟨some (some v2), oif, pf⟩ ∧
    calculate_market_heat ⟨vf, some (some oi), pf⟩ ≤
      calculate_market_heat ⟨vf, some (some oi2), pf⟩ := by
  have hvq : (0 : ℚ) ≤ (v : ℚ) := by exact_mod_cast hv
  have hoiq : (0 : ℚ) ≤ (oi : ℚ) := by exact_mod_cast hoi
  have hv2q : (v : ℚ) ≤ (v2 : ℚ) := by exact_mod_cast hv2
  have hoi2q : (oi : ℚ) ≤ (oi2 : ℚ) := by exact_mod_cast hoi2
  refine ⟨⟨?_, ?_⟩, ?_, ?_⟩
  · -- lower bound
    rw [calculate_market_heat_eq]
    rw [pyOr_getD_zero v, pyOr_getD_zero oi, pyOr_getD_self p 50]
    have hyp : |((if p = 0 then 50 else p : ℤ) : ℚ) - 50| ≤ 50 := by
      by_cases h : p = 0
      · simp [h]
      · rw [if_neg h]
        rw [abs_le]
        constructor
        · have : (0 : ℚ) ≤ (p : ℚ) := by exact_mod_cast hp0
          linarith
        · have : (p : ℚ) ≤ 100 := by exact_mod_cast hp1
          linarith
    have t1 : (0 : ℚ) ≤ min ((v : ℚ) / 10000) 10 :=
      le_min (by positivity) (by norm_num)
    have t2 : (0 : ℚ) ≤ min ((oi : ℚ) / 5000) 5 :=
      le_min (by positivity) (by norm_num)
    have t3 : (0 : ℚ) ≤
        (1 - |((if p = 0 then 50 else p : ℤ) : ℚ) - 50| / 50) * 3 := by
      have : |((if p = 0 then 50 else p : ℤ) : ℚ) - 50| / 50 ≤ 1 := by
        rw [div_le_one (by norm_num)]
        exact hyp
      linarith
    linarith
  · -- upper bound
    rw [calculate_market_heat_eq]
    rw [pyOr_getD_zero v, pyOr_getD_zero oi, pyOr_getD_self p 50]
    have t1 : min ((v : ℚ) / 10000) 10 ≤ 10 := min_le_right _ _
    have t2 : min ((oi : ℚ) / 5000) 5 ≤ 5 := min_le_right _ _
    have t3 : (1 - |((if p = 0 then 50 else p : ℤ) : ℚ) - 50| / 50) * 3 ≤ 3 := by
      have habs : (0 : ℚ) ≤ |((if p = 0 then 50 else p : ℤ) : ℚ) - 50| :=
        abs_nonneg _
      have : (0 : ℚ) ≤ |((if p = 0 then 50 else p : ℤ) : ℚ) - 50| / 50 := by
        positivity
      linarith
    linarith
  · -- monotone in volume
    rw [calculate_market_heat_eq, calculate_market_heat_eq]
    rw [pyOr_getD_zero v, pyOr_getD_zero v2]
    gcongr
  · -- monotone in open interest
    rw [calculate_market_heat_eq, calculate_market_heat_eq]
    rw [pyOr_getD_zero oi, pyOr_getD_zero oi2]
    gcongr

/-- Witness for C4 at a concrete market: volume 20000 ≤ 30000, open
interest 1000 ≤ 2000, price 50. -/
theorem C4_heat_bounds_monotone_witness :
    (0 ≤ calculate_market_heat
        ⟨some (some 20000), some (some 1000), some (some 50)⟩ ∧
     calculate_market_heat
        ⟨some (some 20000), some (some 1000), some (some 50)⟩ ≤ 18) ∧
    calculate_market_heat ⟨some (some 20000), none, none⟩ ≤
      calculate_market_heat ⟨some (some 30000), none, none⟩ ∧
    calculate_market_heat ⟨none, some (some 1000), none⟩ ≤
      calculate_market_heat ⟨none, some (some 2000), none⟩ :=
  C4_heat_bounds_monotone 20000 1000 50 30000 2000
    (by decide) (by decide) (by decide) (by decide) (by decide) (by decide)
    none none none

/-! ### `backend/news_matcher.py` : `calculate_relevance_score` -/

/-- `calculate_relevance_score` from `backend/news_matcher.py`, over the
finite keyword sets produced by `extract_keywords` (keywords abstracted to
natural numbers): `0` if either set is empty or they are disjoint,
otherwise `min(proportion * (1 + 0.1 * match_count), 1.0)` with
`proportion = match_count / min(|a|, |b|)`. -/
def calculate_relevance_score (market_keywords article_keywords : Finset ℕ) :
    ℚ :=
  if market_keywords = ∅ ∨ article_keywords = ∅ then 0
  else
    let intersection := market_keywords ∩ article_keywords
    if intersection = ∅ then 0
    else
      let match_count : ℕ := intersection.card
      let proportion : ℚ := (match_count : ℚ) /
        ((min market_keywords.card article_keywords.card : ℕ) : ℚ)
      let score := proportion * (1 + (1 / 10) * (match_count : ℚ))
      min score 1

theorem calculate_relevance_score_of_inter_ne (a b : Finset ℕ)
    (h : a ∩ b ≠ ∅) :
    calculate_relevance_score a b =
      min ((((a ∩ b).card : ℚ) / ((min a.card b.card : ℕ) : ℚ)) *
        (1 + (1 / 10) * ((a ∩ b).card : ℚ))) 1 := by
  have ha : a ≠ ∅ := by
    intro hae
    exact h (by simp [hae])
  have hb : b ≠ ∅ := by
    intro hbe
    exact h (by simp [hbe])
  simp only [calculate_relevance_score, ha, hb, or_self, if_false, h,
    or_false, if_neg (not_or.mpr ⟨ha, hb⟩)]

/-- Claim C5: `calculate_relevance_score` returns `0` when either keyword
set is empty or they are disjoint, otherwise
`min(|a ∩ b| / min(|a|, |b|) * (1 + 0.1 * |a ∩ b|), 1)`, and the result
always lies in `[0, 1]`. -/
theorem C5_relevance_formula_and_range (a b : Finset ℕ) :
    ((a = ∅ ∨ b = ∅ ∨ a ∩ b = ∅) → calculate_relevance_score a b = 0) ∧
    (a ∩ b ≠ ∅ →
      calculate_relevance_score a b =
        min ((((a ∩ b).card : ℚ) / ((min a.card b.card : ℕ) : ℚ)) *
          (1 + (1 / 10) * ((a ∩ b).card : ℚ))) 1) ∧
    0 ≤ calculate_relevance_score a b ∧
    calculate_relevance_score a b ≤ 1 := by
  refine ⟨?_, calculate_relevance_score_of_inter_ne a b, ?_, ?_⟩
  · intro h
    rcases h with h | h | h
    · simp [calculate_relevance_score, h]
    · simp [calculate_relevance_score, h]
    · by_cases hab : a = ∅ ∨ b = ∅
      · simp [calculate_relevance_score, hab]
      · simp [calculate_relevance_score, hab, h]
  · by_cases h : a ∩ b = ∅
    · by_cases hab : a = ∅ ∨ b = ∅
      · simp [calculate_relevance_score, hab]
      · simp [calculate_relevance_score, if_neg hab, h]
    · rw [calculate_relevance_score_of_inter_ne a b h]
      refine le_min ?_ (by norm_num)
      positivity
  · by_cases h : a ∩ b = ∅
    · by_cases hab : a = ∅ ∨ b = ∅
      · simp [calculate_relevance_score, hab]
      · simp [calculate_relevance_score, if_neg hab, h]
    · rw [calculate_relevance_score_of_inter_ne a b h]
      exact min_le_right _ _

/-- Witness for C5 at the concrete sets `{0, 1}` and `{1, 2}`. -/
theorem C5_relevance_formula_and_range_witness :
    calculate_relevance_score {0, 1} {1, 2} =
      min ((((({0, 1} : Finset ℕ) ∩ {1, 2}).card : ℚ) /
        ((min ({0, 1} : Finset ℕ).card ({1, 2} : Finset ℕ).card : ℕ) : ℚ)) *
        (1 + (1 / 10) * ((({0, 1} : Finset ℕ) ∩ {1, 2}).card : ℚ))) 1 :=
  (C5_relevance_formula_and_range {0, 1} {1, 2}).2.1 (by decide)

/-- Claim C6: `calculate_relevance_score` is symmetric, and on any
non-empty set paired with itself it returns exactly `1`. -/
theorem C6_relevance_symm_and_self (a b c : Finset ℕ) (hc : c ≠ ∅) :
    calculate_relevance_score a b = calculate_relevance_score b a ∧
    calculate_relevance_score c c = 1 := by
  constructor
  · by_cases hab : a = ∅ ∨ b = ∅
    · have hba : b = ∅ ∨ a = ∅ := hab.symm
      simp [calculate_relevance_score, hab, hba]
    · have hba : ¬(b = ∅ ∨ a = ∅) := fun h => hab h.symm
      simp only [calculate_relevance_score, if_neg hab, if_neg hba]
      simp only [Finset.inter_comm b a, Nat.min_comm b.card a.card]
  · have hinter : c ∩ c ≠ ∅ := by simpa [Finset.inter_self] using hc
    rw [calculate_relevance_score_of_inter_ne c c hinter]
    rw [Finset.inter_self, Nat.min_self]
    have hcard : 0 < c.card := Finset.card_pos.mpr (Finset.nonempty_iff_ne_empty.mpr hc)
    have hcq : ((c.card : ℕ) : ℚ) ≠ 0 := by
      exact_mod_cast Nat.pos_iff_ne_zero.mp hcard
    rw [div_self hcq, one_mul]
    have : (1 : ℚ) ≤ 1 + (1 / 10) * (c.card : ℚ) := by
      have : (0 : ℚ) ≤ (c.card : ℚ) := Nat.cast_nonneg _
      linarith
    exact min_eq_right this

/-- Witness for C6: symmetry and self-relevance at `{3, 4}` and `{7}`. -/
theorem C6_relevance_symm_and_self_witness :
    calculate_relevance_score {3, 4} {7} =
      calculate_relevance_score {7} {3, 4} ∧
    calculate_relevance_score {5, 6} {5, 6} = 1 :=
  C6_relevance_symm_and_self {3, 4} {7} {5, 6} (by decide)

/-! ### `backend/news_matcher.py` : `match_news_to_market` -/

/-- Python `round` to the nearest integer with ties to even. -/
def roundHalfEven (q : ℚ) : ℤ :=
  if Int.fract q < 1 / 2 then ⌊q⌋
  else if 1 / 2 < Int.fract q then ⌊q⌋ + 1
  else if 2 ∣ ⌊q⌋ then ⌊q⌋ else ⌊q⌋ + 1

/-- Python `round(x, 3)`. -/
def pyRound3 (q : ℚ) : ℚ :=
  (roundHalfEven (q * 1000) : ℚ) / 1000

/-- `match_news_to_market` from `backend/news_matcher.py`, with each
article abstracted to an identifier paired with the keyword set
`extract_keywords` yields for its title and summary, and the market
likewise to its extracted keyword set.  Articles scoring above the `0.15`
threshold are kept as `(identifier, round(score, 3))`, sorted descending
by stored score (a stable sort, as in Python), and truncated to
`max_matches`. -/
def match_news_to_market (market_keywords : Finset ℕ)
    (articles : List (ℕ × Finset ℕ)) (max_matches : ℕ) : List (ℕ × ℚ) :=
  let scored := articles.filterMap (fun article =>
    let score := calculate_relevance_score market_keywords article.2
    if score > 3 / 20 then some (article.1, pyRound3 score) else none)
  let sorted := scored.mergeSort (fun x y => decide (y.2 ≤ x.2))
  sorted.take max_matches

/-- Claim C7: every entry of `match_news_to_market` comes from an input
article whose relevance score against the market keywords is strictly
above `0.15` (and carries that score, rounded to 3 digits); the output is
sorted descending by stored score; and it has at most `max_matches`
entries. -/
theorem C7_match_threshold_sorted_truncated (mk : Finset ℕ)
    (articles : List (ℕ × Finset ℕ)) (max_matches : ℕ) :
    (∀ x ∈ match_news_to_market mk articles max_matches,
      ∃ a ∈ articles, x.1 = a.1 ∧
        (3 / 20 : ℚ) < calculate_relevance_score mk a.2 ∧
        x.2 = pyRound3 (calculate_relevance_score mk a.2)) ∧
    (match_news_to_market mk articles max_matches).Pairwise
      (fun x y => y.2 ≤ x.2) ∧
    (match_news_to_market mk articles max_matches).length ≤ max_matches := by
  simp only [match_news_to_market]
  refine ⟨?_, ?_, ?_⟩
  · intro x hx
    have hx1 : x ∈ (articles.filterMap (fun article =>
        if calculate_relevance_score mk article.2 > 3 / 20 then
          some (article.1, pyRound3 (calculate_relevance_score mk article.2))
        else none)).mergeSort (fun x y => decide (y.2 ≤ x.2)) :=
      List.take_subset _ _ hx
    have hx2 := (List.mergeSort_perm _ _).mem_iff.mp hx1
    obtain ⟨a, ha, heq⟩ := List.mem_filterMap.mp hx2
    by_cases hsc : calculate_relevance_score mk a.2 > 3 / 20
    · rw [if_pos hsc] at heq
      obtain rfl := Option.some_injective _ heq
      exact ⟨a, ha, rfl, hsc, rfl⟩
    · rw [if_neg hsc] at heq
      exact absurd heq (Option.noConfusion)
  · have htrans : ∀ x y z : ℕ × ℚ, decide (y.2 ≤ x.2) = true →
        decide (z.2 ≤ y.2) = true → decide (z.2 ≤ x.2) = true := by
      intro x y z h1 h2
      simp only [decide_eq_true_eq] at h1 h2 ⊢
      exact le_trans h2 h1
    have htotal : ∀ x y : ℕ × ℚ,
        (decide (y.2 ≤ x.2) || decide (x.2 ≤ y.2)) = true := by
      intro x y
      simp [le_total]
    have hs := List.sorted_mergeSort htrans htotal
      (articles.filterMap (fun article =>
        if calculate_relevance_score mk article.2 > 3 / 20 then
          some (article.1, pyRound3 (calculate_relevance_score mk article.2))
        else none))
    have hs2 := hs.imp (fun h => of_decide_eq_true h)
    exact List.Pairwise.sublist (List.take_sublist _ _) hs2
  · exact List.length_take_le _ _

/-- Witness for C7: applying the theorem at a concrete market, two
articles, and cap 1 gives the truncation bound. -/
theorem C7_match_threshold_sorted_truncated_witness :
    (match_news_to_market {1, 2} [(10, {1, 2}), (11, {5})] 1).length ≤ 1 :=
  (C7_match_threshold_sorted_truncated {1, 2} [(10, {1, 2}), (11, {5})] 1).2.2

/-! ### `backend/kalshi_client.py` : pagination loops -/

/-- One page as served by the remote source to the pagination loop: a
successful response carrying the page's item list and the cursor field of
the response body, or an exception raised while fetching that page. -/
inductive PageResult (α : Type) where
  | ok (items : List α) (cursor : Option String)
  | err

/-- Python truthiness of the cursor: `None` and the empty string are
falsy (`if not cursor: break`). -/
def cursorTruthy : Option String → Bool
  | none => false
  | some s => !s.isEmpty

/-- The `while len(collected) < max_items` pagination loop shared by
`get_all_open_markets` and `get_all_events` in `backend/kalshi_client.py`:
stop on an empty page, a falsy cursor, the item cap, an exception, or
exhaustion of the response sequence, and return the accumulated items
truncated to the cap. -/
def fetchAllLoop {α : Type} (maxItems : ℕ) :
    List (PageResult α) → List α → List α
  | [], acc => acc.take maxItems
  | page :: rest, acc =>
    if acc.length < maxItems then
      match page with
      | .err => acc.take maxItems
      | .ok items cursor =>
        if items.isEmpty then acc.take maxItems
        else if cursorTruthy cursor then fetchAllLoop maxItems rest (acc ++ items)
        else (acc ++ items).take maxItems
    else acc.take maxItems

/-- `KalshiClient.get_all_open_markets(max_markets)`, applied to the
sequence of page responses the API produces. -/
def get_all_open_markets {α : Type} (pages : List (PageResult α))
    (max_markets : ℕ) : List α :=
  fetchAllLoop max_markets pages []

/-- `KalshiClient.get_all_events(status, max_events)`, applied to the
sequence of page responses the API produces. -/
def get_all_events {α : Type} (pages : List (PageResult α))
    (max_events : ℕ) : List α :=
  fetchAllLoop max_events pages []

theorem fetchAllLoop_of_cap {α : Type} (maxItems : ℕ)
    (pages : List (PageResult α)) (acc : List α)
    (h : ¬ acc.length < maxItems) :
    fetchAllLoop maxItems pages acc = acc.take maxItems := by
  cases pages with
  | nil => rfl
  | cons page rest => simp [fetchAllLoop, h]

theorem fetchAllLoop_err {α : Type} (maxItems : ℕ)
    (rest : List (PageResult α)) (acc : List α) :
    fetchAllLoop maxItems (.err :: rest) acc = acc.take maxItems := by
  by_cases h : acc.length < maxItems <;> simp [fetchAllLoop, h]

theorem fetchAllLoop_empty_page {α : Type} (maxItems : ℕ)
    (c : Option String) (rest : List (PageResult α)) (acc : List α) :
    fetchAllLoop maxItems (.ok [] c :: rest) acc = acc.take maxItems := by
  by_cases h : acc.length < maxItems <;> simp [fetchAllLoop, h]

theorem fetchAllLoop_cont {α : Type} (maxItems : ℕ) (items : List α)
    (c : Option String) (rest : List (PageResult α)) (acc : List α)
    (hitems : items ≠ []) (hc : cursorTruthy c = true)
    (hlen : acc.length < maxItems) :
    fetchAllLoop maxItems (.ok items c :: rest) acc =
      fetchAllLoop maxItems rest (acc ++ items) := by
  simp [fetchAllLoop, hlen, hitems, hc]

theorem fetchAllLoop_no_cursor {α : Type} (maxItems : ℕ) (items : List α)
    (c : Option String) (rest : List (PageResult α)) (acc : List α)
    (hitems : items ≠ []) (hc : cursorTruthy c = false) :
    fetchAllLoop maxItems (.ok items c :: rest) acc =
      (acc ++ items).take maxItems := by
  by_cases h : acc.length < maxItems
  · simp [fetchAllLoop, h, hitems, hc]
  · rw [fetchAllLoop_of_cap maxItems _ acc h]
    rw [List.take_append_of_le_length (by omega)]

theorem fetchAllLoop_length_le {α : Type} (maxItems : ℕ)
    (pages : List (PageResult α)) :
    ∀ acc : List α, (fetchAllLoop maxItems pages acc).length ≤ maxItems := by
  induction pages with
  | nil => intro acc; exact List.length_take_le _ _
  | cons page rest ih =>
    intro acc
    by_cases h : acc.length < maxItems
    · cases page with
      | err => rw [fetchAllLoop_err]; exact List.length_take_le _ _
      | ok items cursor =>
        by_cases hi : items.isEmpty
        · simp only [fetchAllLoop, if_pos h, if_pos hi]
          exact List.length_take_le _ _
        · by_cases hc : cursorTruthy cursor
          · simp only [fetchAllLoop, if_pos h, if_neg hi, if_pos hc]
            exact ih _
          · simp only [fetchAllLoop, if_pos h, if_neg hi,
              if_neg (by simp [hc] : ¬ cursorTruthy cursor = true)]
            exact List.length_take_le _ _
    · rw [fetchAllLoop_of_cap maxItems _ acc h]
      exact List.length_take_le _ _

/-- Claim C8: the paginated fetch loops `get_all_open_markets` and
`get_all_events` always return at most the item cap; a page with an empty
item list stops the loop and yields the concatenation of the earlier
pages (truncated to the cap); a page whose response has no cursor stops
the loop the same way; and an error while fetching a page stops the loop
and returns what was collected so far instead of raising. -/
theorem C8_pagination_terminates_and_truncates {α : Type}
    (p1 p2 : List α) (c1 c2 c3 : Option String)
    (rest : List (PageResult α)) (maxItems : ℕ)
    (h1 : p1 ≠ []) (h2 : p2 ≠ []) (hc1 : cursorTruthy c1 = true)
    (hc2 : cursorTruthy c2 = true) :
    (∀ pages : List (PageResult α),
      (get_all_open_markets pages maxItems).length ≤ maxItems ∧
      (get_all_events pages maxItems).length ≤ maxItems) ∧
    get_all_open_markets (.ok p1 c1 :: .ok p2 c2 :: .ok [] c3 :: rest)
        maxItems = (p1 ++ p2).take maxItems ∧
    get_all_events (.ok p1 c1 :: .ok p2 none :: rest) maxItems =
      (p1 ++ p2).take maxItems ∧
    get_all_open_markets (.ok p1 c1 :: .ok p2 c2 :: .err :: rest) maxItems =
      (p1 ++ p2).take maxItems := by
  have hz : ∀ pages : List (PageResult α), ¬ 0 < maxItems →
      fetchAllLoop maxItems pages ([] : List α) = [] := by
    intro pages h0
    rw [fetchAllLoop_of_cap maxItems pages [] (by simpa using h0)]
    simp
  refine ⟨?_, ?_, ?_, ?_⟩
  · intro pages
    exact ⟨fetchAllLoop_length_le maxItems pages [],
      fetchAllLoop_length_le maxItems pages []⟩
  · by_cases h0 : 0 < maxItems
    · rw [get_all_open_markets,
        fetchAllLoop_cont maxItems p1 c1 _ [] h1 hc1 (by simpa using h0)]
      simp only [List.nil_append]
      by_cases hl1 : p1.length < maxItems
      · rw [fetchAllLoop_cont maxItems p2 c2 _ p1 h2 hc2 hl1]
        exact fetchAllLoop_empty_page maxItems c3 rest (p1 ++ p2)
      · rw [fetchAllLoop_of_cap maxItems _ p1 hl1,
          List.take_append_of_le_length (by omega)]
    · have hm0 : maxItems = 0 := by omega
      subst hm0
      rw [get_all_open_markets, hz _ (by omega)]
      simp
  · by_cases h0 : 0 < maxItems
    · rw [get_all_events,
        fetchAllLoop_cont maxItems p1 c1 _ [] h1 hc1 (by simpa using h0)]
      simp only [List.nil_append]
      exact fetchAllLoop_no_cursor maxItems p2 none rest p1 h2 rfl
    · have hm0 : maxItems = 0 := by omega
      subst hm0
      rw [get_all_events, hz _ (by omega)]
      simp
  · by_cases h0 : 0 < maxItems
    · rw [get_all_open_markets,
        fetchAllLoop_cont maxItems p1 c1 _ [] h1 hc1 (by simpa using h0)]
      simp only [List.nil_append]
      by_cases hl1 : p1.length < maxItems
      · rw [fetchAllLoop_cont maxItems p2 c2 _ p1 h2 hc2 hl1]
        exact fetchAllLoop_err maxItems rest (p1 ++ p2)
      · rw [fetchAllLoop_of_cap maxItems _ p1 hl1,
          List.take_append_of_le_length (by omega)]
    · have hm0 : maxItems = 0 := by omega
      subst hm0
      rw [get_all_open_markets, hz _ (by omega)]
      simp

/-- Witness for C8: pages `[1, 2]` then `[3]` followed by an empty page,
a missing cursor, or an error, with cap 10. -/
theorem C8_pagination_terminates_and_truncates_witness :
    get_all_open_markets
        [.ok [1, 2] (some "a"), .ok [3] (some "b"), .ok ([] : List ℕ) none]
        10 = ([1, 2] ++ [3]).take 10 ∧
    get_all_events [.ok [1, 2] (some "a"), .ok [3] none] 10 =
      ([1, 2] ++ [3]).take 10 ∧
    get_all_open_markets
        [.ok [1, 2] (some "a"), .ok [3] (some "b"), .err] 10 =
      ([1, 2] ++ [3]).take 10 :=
  (C8_pagination_terminates_and_truncates [1, 2] [3] (some "a") (some "b")
    none [] 10 (by decide) (by decide) (by decide) (by decide)).2

/-! ### `backend/kalshi_client.py` : `KalshiClient._request` retry loop -/

/-- Outcome of one HTTP attempt inside `KalshiClient._request`:
a successful 2xx response with a JSON body, an `httpx.HTTPStatusError`
raised by `raise_for_status`, a network error
(`httpx.RequestError` / `httpx.ConnectTimeout`), or any other
exception. -/
inductive AttemptOutcome where
  | success (body : ℕ)
  | httpStatus (status : ℕ)
  | networkError
  | otherError
deriving DecidableEq

/-- The error with which `_request` ultimately raises. -/
inductive RequestFailure where
  | httpStatus (status : ℕ)
  | network
  | other
deriving DecidableEq

/-- The `for attempt in range(max_retries + 1)` loop of
`KalshiClient._request`, consuming one attempt outcome per iteration.
Returns the result together with the list of sleep durations (seconds)
performed between attempts: `backoff_factor * 2 ** attempt` after a 429,
a fixed `1` after a network error.  The `[]` case is unreachable when the
outcome sequence supplies at least `max_retries + 1` entries. -/
def requestLoop (max_retries : ℕ) :
    ℕ → List AttemptOutcome → Except RequestFailure ℕ × List ℚ
  | _, [] => (.error .other, [])
  | attempt, outcome :: rest =>
    match outcome with
    | .success body => (.ok body, [])
    | .httpStatus s =>
      if s = 429 ∧ attempt < max_retries then
        let r := requestLoop max_retries (attempt + 1) rest
        (r.1, 1 * (2 : ℚ) ^ attempt :: r.2)
      else (.error (.httpStatus s), [])
    | .networkError =>
      if attempt < max_retries then
        let r := requestLoop max_retries (attempt + 1) rest
        (r.1, (1 : ℚ) :: r.2)
      else (.error .network, [])
    | .otherError => (.error .other, [])

/-- `KalshiClient._request` with its configuration `max_retries = 3`,
`backoff_factor = 1.0`, applied to the sequence of outcomes the network
produces for the successive attempts. -/
def KalshiClient_request (outcomes : List AttemptOutcome) :
    Except RequestFailure ℕ × List ℚ :=
  requestLoop 3 0 outcomes

/-- Claim C2 counterexample: the claim says a transient network error is
retried only once.  On the code, a request whose first three attempts all
fail with network errors still succeeds on the fourth attempt, after
three fixed 1-second sleeps — the network-error retry budget is 3 (the
same loop counter as the rate-limit budget), not 1. -/
theorem C2_counterexample_network_retried_thrice :
    KalshiClient_request
        [.networkError, .networkError, .networkError, .success 7] =
      (.ok 7, [1, 1, 1]) := by
  simp [KalshiClient_request, requestLoop]

/-- Claim C2 (amended): in `KalshiClient._request`, a 429 rate-limit
response is retried with exponential backoff `1s * 2 ** attempt`, a
transient network error is retried after a fixed 1-second delay, both
sharing the same budget of `max_retries = 3` retries (4 attempts total),
and any other HTTP status error propagates immediately without retry. -/
theorem C2_retry_policy (s body : ℕ) (hs : s ≠ 429)
    (rest : List AttemptOutcome) :
    KalshiClient_request (.httpStatus s :: rest) =
      (.error (.httpStatus s), []) ∧
    KalshiClient_request
        (.httpStatus 429 :: .httpStatus 429 :: .httpStatus 429 ::
          .success body :: rest) = (.ok body, [1, 2, 4]) ∧
    KalshiClient_request
        (.httpStatus 429 :: .httpStatus 429 :: .httpStatus 429 ::
          .httpStatus 429 :: rest) =
      (.error (.httpStatus 429), [1, 2, 4]) ∧
    KalshiClient_request
        (.networkError :: .networkError :: .networkError ::
          .success body :: rest) = (.ok body, [1, 1, 1]) ∧
    KalshiClient_request
        (.networkError :: .networkError :: .networkError ::
          .networkError :: rest) = (.error .network, [1, 1, 1]) := by
  refine ⟨?_, ?_, ?_, ?_, ?_⟩ <;>
    norm_num [KalshiClient_request, requestLoop, hs]

/-- Witness for C2: a 503 response propagates immediately, while 429s and
network errors are retried three times. -/
theorem C2_retry_policy_witness :
    KalshiClient_request [.httpStatus 503] =
      (.error (.httpStatus 503), []) ∧
    KalshiClient_request
        [.httpStatus 429, .httpStatus 429, .httpStatus 429, .success 5] =
      (.ok 5, [1, 2, 4]) ∧
    KalshiClient_request
        [.httpStatus 429, .httpStatus 429, .httpStatus 429,
          .httpStatus 429] = (.error (.httpStatus 429), [1, 2, 4]) ∧
    KalshiClient_request
        [.networkError, .networkError, .networkError, .success 5] =
      (.ok 5, [1, 1, 1]) ∧
    KalshiClient_request
        [.networkError, .networkError, .networkError, .networkError] =
      (.error .network, [1, 1, 1]) :=
  C2_retry_policy 503 5 (by decide) []

/-! ### `backend/ingestion.py` / `backend/database/crud.py` : bulk upsert -/

/-- `upsert_markets_bulk` from `backend/database/crud.py`: merges every
record of the batch inside one session before a single commit, so the
bulk operation succeeds (returning the count) exactly when the database
accepts every record of the batch, and raises otherwise.  `accepts` is
the database's per-record acceptance oracle. -/
def upsert_markets_bulk {α : Type} (accepts : α → Bool) (markets : List α) :
    Option ℕ :=
  if markets.all accepts then some markets.length else none

/-- The market-persistence step of `ingest_kalshi_data`
(`backend/ingestion.py`): try `upsert_markets_bulk` and commit; if it
raises, roll back and retry the records one by one, committing each
success and logging-then-rolling-back each individual failure.  Returns
the persisted records and the failed records; the surrounding
`try`/`except` means no exception escapes the cycle. -/
def ingest_markets_step {α : Type} (accepts : α → Bool)
    (db_markets : List α) : List α × List α :=
  match upsert_markets_bulk accepts db_markets with
  | some _ => (db_markets, [])
  | none =>
    db_markets.foldl
      (fun acc m =>
        if accepts m then (acc.1 ++ [m], acc.2) else (acc.1, acc.2 ++ [m]))
      ([], [])

theorem ingest_foldl {α : Type} (accepts : α → Bool) (l : List α) :
    ∀ p f : List α,
      l.foldl
        (fun acc m =>
          if accepts m then (acc.1 ++ [m], acc.2) else (acc.1, acc.2 ++ [m]))
        (p, f) =
      (p ++ l.filter accepts, f ++ l.filter (fun m => !(accepts m))) := by
  induction l with
  | nil => intro p f; simp
  | cons x xs ih =>
    intro p f
    rw [List.foldl_cons]
    by_cases h : accepts x
    · rw [if_pos h, ih]
      simp [List.filter_cons, h]
    · have hh : accepts x = false := by simpa using h
      rw [if_neg (by simp [hh]), ih]
      simp [List.filter_cons, hh]

theorem filter_length_split {α : Type} (p : α → Bool) (l : List α) :
    (l.filter p).length + (l.filter (fun m => !(p m))).length = l.length := by
  induction l with
  | nil => rfl
  | cons x xs ih =>
    by_cases h : p x <;> simp [List.filter_cons, h] <;> omega

/-- Claim C9: when the bulk market upsert fails, the orchestrator falls
back to per-record upserts: the persisted records are exactly those the
database accepts, the failed records exactly those it rejects (each
logged and skipped), their counts add up to the whole batch, and in
particular a batch with exactly one bad record persists all but one. -/
theorem C9_bulk_upsert_fallback {α : Type} (accepts : α → Bool)
    (batch : List α) :
    (ingest_markets_step accepts batch).1 = batch.filter accepts ∧
    (ingest_markets_step accepts batch).2 =
      batch.filter (fun m => !(accepts m)) ∧
    (ingest_markets_step accepts batch).1.length +
      (ingest_markets_step accepts batch).2.length = batch.length ∧
    ((batch.filter (fun m => !(accepts m))).length = 1 →
      (ingest_markets_step accepts batch).1.length = batch.length - 1) := by
  have key : ingest_markets_step accepts batch =
      (batch.filter accepts, batch.filter (fun m => !(accepts m))) := by
    rw [ingest_markets_step]
    by_cases hall : batch.all accepts
    · rw [upsert_markets_bulk, if_pos hall]
      have h1 : batch.filter accepts = batch :=
        List.filter_eq_self.mpr (fun a ha => (List.all_eq_true.mp hall) a ha)
      have h2 : batch.filter (fun m => !(accepts m)) = [] := by
        rw [List.filter_eq_nil_iff]
        intro a ha
        simp [(List.all_eq_true.mp hall) a ha]
      rw [h1, h2]
    · rw [upsert_markets_bulk, if_neg hall]
      simpa using ingest_foldl accepts batch [] []
  have hlen := filter_length_split accepts batch
  refine ⟨by rw [key], by rw [key], by rw [key]; exact hlen, ?_⟩
  intro hone
  rw [key]
  simp only at hone ⊢
  omega

/-- Witness for C9, the spec scenario: a batch of 100 records with
exactly one invalid record persists exactly 99. -/
theorem C9_bulk_upsert_fallback_witness :
    (ingest_markets_step (fun b => b)
        (List.replicate 99 true ++ [false])).1.length =
      (List.replicate 99 true ++ [false]).length - 1 :=
  (C9_bulk_upsert_fallback (fun b => b)
    (List.replicate 99 true ++ [false])).2.2.2 (by decide)
